import Mathlib

/-!
Verification of the long-text semantic-similarity evaluator
(`rate_embedding.py`, class `EmbeddingEvaluator`).

Shallow embedding conventions:
* Python strings are Lean `String`s; Python's `not text.strip()` test (all
  characters whitespace, or empty) is modelled by `strBlank`.
* A cell value coming from a pandas table is a `PyVal α`: `pynull` covers
  `None`/`NaN` (everything `pd.isna` accepts), `str` is a Python `str`,
  `num` is any other non-null scalar (`isinstance(·, str)` is false,
  `pd.isna(·)` is false).  `α` is the numeric payload type.
* The sentence-transformers tokenizer is an abstract pair of functions
  `encode : String → List ℕ` (called with `add_special_tokens=False`,
  `truncation=False`) and `decode : List ℕ → String`
  (`skip_special_tokens=True`); token ids are naturals.
* The neural embedding model is an abstract function `String → Fin d → ℝ`
  (one fixed-length real vector per chunk text); float arithmetic is
  modelled over ℝ.
* The Python `for start in range(0, len(ids), stride)` loop with two
  `break`s is embedded as structural recursion on a fuel parameter; the
  canonical call supplies fuel `ids.length + 1`, which suffices whenever
  `stride ≥ 1` (the termination claim below makes this precise).
-/

namespace RateEmbedding

/-- Python's `not s.strip()`: `True` iff the string is empty or consists of
whitespace only. -/
def strBlank (s : String) : Bool :=
  s.data.all Char.isWhitespace

/-- A pandas cell value: `None`/`NaN`, a `str`, or some other scalar. -/
inductive PyVal (α : Type) where
  | pynull
  | str (s : String)
  | num (x : α)
deriving DecidableEq

/-- Python's `pd.isna(v)`. -/
def PyVal.isna {α : Type} : PyVal α → Bool
  | .pynull => true
  | _ => false

/-- Python's `isinstance(v, str)`. -/
def PyVal.isStr {α : Type} : PyVal α → Bool
  | .str _ => true
  | _ => false

/-- The guard shared by `_chunk_by_tokens` and `_pooled_embedding`:
`v` passes iff it is a string whose `strip()` is non-empty (i.e. the value
is scorable text). -/
def PyVal.scorable {α : Type} : PyVal α → Bool
  | .str s => !strBlank s
  | _ => false

/-- The model tokenizer (`self.tokenizer`), abstracted to its two
capabilities used by the chunker. -/
structure Tokenizer where
  encode : String → List ℕ
  decode : List ℕ → String

/-! ## Constructor arithmetic (`EmbeddingEvaluator.__init__`)

Python ints are `ℤ`; Python's floor division `//` agrees with `Int`'s `/`
on the non-negative operands that occur here (`chunk_size ≥ 16`). -/

/-- The fixed safety margin reserved for model-inserted special tokens
(`self.margin = 8`). -/
def margin : ℤ := 8

/-- Python's `max_tokens or int(model_max)`: the explicit argument wins
unless it is falsy (`None` or `0`). -/
def effectiveMaxTokens (model_max : ℤ) (max_tokens : Option ℤ) : ℤ :=
  match max_tokens with
  | some m => if m = 0 then model_max else m
  | none => model_max

/-- `self.chunk_size = max(16, self.max_tokens - self.margin)`. -/
def initChunkSize (model_max : ℤ) (max_tokens : Option ℤ) : ℤ :=
  max 16 (effectiveMaxTokens model_max max_tokens - margin)

/-- `self.chunk_overlap = max(0, min(chunk_overlap, self.chunk_size // 2))`. -/
def initChunkOverlap (chunk_overlap chunk_size : ℤ) : ℤ :=
  max 0 (min chunk_overlap (chunk_size / 2))

/-! ## Token chunking (`EmbeddingEvaluator._chunk_by_tokens`) -/

/-- The loop `for start in range(0, len(ids), stride)` of
`_chunk_by_tokens`, collecting the token-id windows (decoding to text is
applied afterwards by `chunk_by_tokens`; the Python code decodes each
window as it is appended, which yields the same list).  `fuel` bounds the
number of iterations; the canonical call uses `ids.length + 1`, enough
for every positive stride. -/
def chunkFrom (ids : List ℕ) (chunkSize stride : ℕ) : ℕ → ℕ → List (List ℕ)
  | 0, _ => []
  | fuel + 1, start =>
    if start < ids.length then
      let sub := (ids.drop start).take chunkSize
      if sub.isEmpty then []
      else if ids.length ≤ start + chunkSize then [sub]
      else sub :: chunkFrom ids chunkSize stride fuel (start + stride)
    else []

/-- `EmbeddingEvaluator._chunk_by_tokens(text)`: split text into
overlapping chunks of at most `chunkSize` tokens. -/
def chunk_by_tokens {α : Type} (tok : Tokenizer) (chunkSize chunkOverlap : ℕ)
    (text : PyVal α) : List String :=
  match text with
  | .str s =>
    if strBlank s then []
    else
      let ids := tok.encode s
      if ids.length ≤ chunkSize then [s]
      else
        (chunkFrom ids chunkSize (chunkSize - chunkOverlap) (ids.length + 1) 0).map
          tok.decode
  | _ => []

/-! ## Embedding, pooling and cosine similarity

`torch.nn.functional.normalize(v, p=2, dim=…)` divides by
`clamp_min(‖v‖₂, eps)` with `eps = 1e-12`; `sentence_transformers.util.cos_sim`
applies exactly that normalization to both arguments and then takes the dot
product.  Floats are modelled by ℝ. -/

/-- A fixed-dimension embedding vector. -/
def Vec (d : ℕ) : Type := Fin d → ℝ

/-- Dot product of two embedding vectors. -/
def dotProd {d : ℕ} (a b : Vec d) : ℝ :=
  ∑ i, a i * b i

/-- Euclidean (L2) norm of an embedding vector. -/
noncomputable def l2norm {d : ℕ} (v : Vec d) : ℝ :=
  Real.sqrt (∑ i, v i * v i)

/-- The `eps` of `torch.nn.functional.normalize` (default `1e-12`). -/
noncomputable def torchEps : ℝ := 1 / 10 ^ 12

/-- `torch.nn.functional.normalize(v, p=2)`: divide by the L2 norm clamped
below by `eps`. -/
noncomputable def epsNormalize {d : ℕ} (v : Vec d) : Vec d :=
  fun i => v i / max (l2norm v) torchEps

/-- `sentence_transformers.util.cos_sim(a, b)` for single vectors:
normalize both (with the `eps` clamp) and take the dot product. -/
noncomputable def cosSim {d : ℕ} (a b : Vec d) : ℝ :=
  dotProd (epsNormalize a) (epsNormalize b)

/-- Mean pooling across chunk embeddings (`embs.mean(dim=0)`). -/
noncomputable def meanPool {d : ℕ} (l : List (Vec d)) : Vec d :=
  fun i => (l.map (fun v => v i)).sum / (l.length : ℝ)

/-- The `EmbeddingEvaluator` instance state after `__init__`: the loaded
model is abstracted to its per-text embedding function `embed`
(`self.model.encode` restricted to a single text, including whatever
normalization `encode` itself applies), together with the tokenizer and
the derived chunking configuration. -/
structure EmbeddingEvaluator (d : ℕ) where
  embed : String → Vec d
  tok : Tokenizer
  normalize : Bool
  chunk_size : ℕ
  chunk_overlap : ℕ

/-- `EmbeddingEvaluator._embed_texts(texts)`: one embedding per chunk, in
order (batching is an implementation detail of throughput; an empty input
yields the empty list of vectors). -/
def embed_texts {d : ℕ} (E : EmbeddingEvaluator d) (texts : List String) :
    List (Vec d) :=
  texts.map E.embed

/-- `EmbeddingEvaluator._pooled_embedding(text)`: guard against null /
non-string / blank input, chunk, embed, mean-pool, then re-normalize when
`self.normalize` is set.  `None` is `Option.none`. -/
noncomputable def pooled_embedding {d : ℕ} {α : Type} (E : EmbeddingEvaluator d)
    (text : PyVal α) : Option (Vec d) :=
  match text with
  | .str s =>
    if strBlank s then none
    else
      let chunks := chunk_by_tokens E.tok E.chunk_size E.chunk_overlap
        (PyVal.str (α := α) s)
      if chunks.isEmpty then none
      else
        let embs := embed_texts E chunks
        if embs.length = 0 then none
        else
          let pooled := meanPool embs
          some (if E.normalize then epsNormalize pooled else pooled)
  | _ => none

/-- `EmbeddingEvaluator.compute_similarity(text1, text2)`: pooled cosine
similarity, `None` when either side has no pooled embedding. -/
noncomputable def compute_similarity {d : ℕ} {α : Type} (E : EmbeddingEvaluator d)
    (text1 text2 : PyVal α) : Option ℝ :=
  match pooled_embedding E text1, pooled_embedding E text2 with
  | some e1, some e2 => some (cosSim e1 e2)
  | _, _ => none

/-! ## The batch driver (`EmbeddingEvaluator.evaluate_results`)

A pandas `DataFrame` is columnar: an ordered list of named columns, each a
list of cell values.  `pd.read_csv` is abstracted away (the theorems take
the parsed table directly).  The scorer is passed as a function parameter
so that its unexpected exceptions can be represented: a call either
returns `Except.ok` with the optional score or raises (`Except.error ()`).
In the source the scorer is the bound method `self.compute_similarity`. -/

/-- A pandas data frame: ordered named columns. -/
structure DataFrame (α : Type) where
  cols : List (String × List (PyVal α))
deriving DecidableEq

/-- The ordered list of column names (`df.columns`). -/
def DataFrame.colNames {α : Type} (df : DataFrame α) : List String :=
  df.cols.map Prod.fst

/-- Column lookup (`df[c]`), `none` when the column is absent. -/
def DataFrame.getCol {α : Type} (df : DataFrame α) (c : String) :
    Option (List (PyVal α)) :=
  df.cols.lookup c

/-- `df[c] = vals`: pandas replaces the values of an existing column in
place (keeping its position) and appends a brand-new column at the end. -/
def DataFrame.setCol {α : Type} (df : DataFrame α) (c : String)
    (vals : List (PyVal α)) : DataFrame α :=
  if c ∈ df.colNames then
    ⟨df.cols.map (fun p => if p.1 = c then (c, vals) else p)⟩
  else
    ⟨df.cols ++ [(c, vals)]⟩

/-- `len(df)`: the number of rows (length of the first column; `0` for a
table with no columns). -/
def DataFrame.nRows {α : Type} (df : DataFrame α) : ℕ :=
  match df.cols with
  | [] => 0
  | p :: _ => p.2.length

/-- `row[c]` for row index `i` during `df.iterrows()`. -/
def DataFrame.cell {α : Type} (df : DataFrame α) (c : String) (i : ℕ) :
    PyVal α :=
  ((df.getCol c).getD []).getD i PyVal.pynull

/-- The ten required input columns, in source order. -/
def requiredColumns : List String :=
  ["ai_facts", "human_facts",
   "ai_issue", "human_issue",
   "ai_decision", "human_decision",
   "ai_reasons", "human_reasons",
   "ai_ratio", "human_ratio"]

/-- The five section names, in source order. -/
def sections : List String :=
  ["facts", "issue", "decision", "reasons", "ratio"]

/-- The fixed output location of `evaluate_results`. -/
def outputFile : String :=
  "results/evaluated_case_model_results_with_section_similarity.csv"

/-- The ways `evaluate_results` can terminate abnormally: the up-front
`ValueError` listing the missing required columns, or an uncaught
exception escaping from a scorer call. -/
inductive EvalError where
  | missingColumns (names : List String)
  | scorerFailure
deriving DecidableEq

instance {ε α : Type} [DecidableEq ε] [DecidableEq α] :
    DecidableEq (Except ε α) := fun a b =>
  match a, b with
  | .error e, .error e' =>
    if h : e = e' then .isTrue (by rw [h]) else .isFalse (by simp [h])
  | .error _, .ok _ => .isFalse (by simp)
  | .ok _, .error _ => .isFalse (by simp)
  | .ok x, .ok y =>
    if h : x = y then .isTrue (by rw [h]) else .isFalse (by simp [h])

/-- Store an optional score into a pandas cell: a missing score becomes
`None`/`NaN`. -/
def scoreToCell {α : Type} : Option α → PyVal α
  | some x => .num x
  | none => .pynull

/-- The list comprehension
`[self.compute_similarity(row[f"ai_{s}"], row[f"human_{s}"]) for _, row in df.iterrows()]`:
left-to-right evaluation, the first uncaught scorer exception aborts the
whole comprehension. -/
def sectionCells {α : Type} (sim : PyVal α → PyVal α → Except Unit (Option α))
    (df : DataFrame α) (sec : String) : List ℕ → Except Unit (List (PyVal α))
  | [] => .ok []
  | i :: rest =>
    match sim (df.cell ("ai_" ++ sec) i) (df.cell ("human_" ++ sec) i) with
    | .error e => .error e
    | .ok r =>
      match sectionCells sim df sec rest with
      | .error e => .error e
      | .ok rs => .ok (scoreToCell r :: rs)

/-- The full similarity column for one section, over all row indices. -/
def sectionColumn {α : Type} (sim : PyVal α → PyVal α → Except Unit (Option α))
    (df : DataFrame α) (sec : String) : Except Unit (List (PyVal α)) :=
  sectionCells sim df sec (List.range df.nRows)

/-- The `for section in sections:` loop of `evaluate_results`: compute one
similarity column per section and assign it to the (growing) frame; an
uncaught scorer exception aborts the loop. -/
def applySections {α : Type} (sim : PyVal α → PyVal α → Except Unit (Option α)) :
    List String → DataFrame α → Except EvalError (DataFrame α)
  | [], df => .ok df
  | sec :: rest, df =>
    match sectionColumn sim df sec with
    | .error _ => .error .scorerFailure
    | .ok vals => applySections sim rest (df.setCol (sec ++ "_similarity") vals)

/-- `EmbeddingEvaluator.evaluate_results(input_file)` on the parsed table:
validate the schema (raising one `ValueError` listing every missing
required column), compute the five similarity columns row by row, then
persist the augmented table.  Success carries the persisted table together
with the output location reported to the caller; an error means nothing
was written. -/
def evaluate_results {α : Type} (sim : PyVal α → PyVal α → Except Unit (Option α))
    (df : DataFrame α) : Except EvalError (DataFrame α × String) :=
  let missing := requiredColumns.filter (fun c => !(df.colNames.contains c))
  if missing.isEmpty then
    match applySections sim sections df with
    | .error e => .error e
    | .ok df2 => .ok (df2, outputFile)
  else
    .error (.missingColumns missing)

/-! ## Helper lemmas -/

theorem chunkFrom_fuel_congr (ids : List ℕ) (cs stride : ℕ) (hs : 0 < stride) :
    ∀ f1 f2 start, ids.length - start ≤ f1 → ids.length - start ≤ f2 →
      chunkFrom ids cs stride f1 start = chunkFrom ids cs stride f2 start := by
  intro f1
  induction f1 with
  | zero =>
    intro f2 start h1 _
    cases f2 with
    | zero => rfl
    | succ g =>
      have : ¬ start < ids.length := by omega
      simp [chunkFrom, this]
  | succ f ih =>
    intro f2 start h1 h2
    cases f2 with
    | zero =>
      have : ¬ start < ids.length := by omega
      simp [chunkFrom, this]
    | succ g =>
      by_cases hlt : start < ids.length
      · simp only [chunkFrom, hlt, if_true]
        by_cases hempty : ((ids.drop start).take cs).isEmpty
        · simp [hempty]
        · by_cases hend : ids.length ≤ start + cs
          · simp [hempty, hend]
          · simp only [hempty, hend, if_false, Bool.false_eq_true]
            rw [ih g (start + stride) (by omega) (by omega)]
      · simp [chunkFrom, hlt]

theorem chunkFrom_closed (ids : List ℕ) (cs stride : ℕ)
    (hcs : 0 < cs) (hs1 : 0 < stride) (hs2 : stride ≤ cs) :
    ∀ fuel start, start < ids.length → ids.length ≤ start + fuel * stride →
      chunkFrom ids cs stride fuel start
        = (List.range (if ids.length - start ≤ cs then 1
            else (ids.length - start - cs - 1) / stride + 2)).map
            (fun i => (ids.drop (start + i * stride)).take cs) := by
  intro fuel
  induction fuel with
  | zero => intro start h1 h2; omega
  | succ fuel ih =>
    intro start h1 h2
    have hne : (ids.drop start).take cs ≠ [] := by
      intro h
      have hl := congrArg List.length h
      simp only [List.length_take, List.length_drop, List.length_nil] at hl
      omega
    have hsub : ((ids.drop start).take cs).isEmpty = false := by
      cases hq : (ids.drop start).take cs with
      | nil => exact absurd hq hne
      | cons a l => rfl
    by_cases hend : ids.length ≤ start + cs
    · have hm : ids.length - start ≤ cs := by omega
      simp [chunkFrom, h1, hsub, hend, hm, List.range_succ]
    · have hm : ¬ ids.length - start ≤ cs := by omega
      have hmul : (fuel + 1) * stride = fuel * stride + stride := by ring
      have hrec := ih (start + stride) (by omega) (by omega)
      have hm2 : ids.length - (start + stride) = ids.length - start - stride := by
        omega
      rw [hm2] at hrec
      simp only [chunkFrom, h1, if_true, hsub, Bool.false_eq_true, if_false,
        hend, hrec]
      have hcnt : (if ids.length - start ≤ cs then 1
            else (ids.length - start - cs - 1) / stride + 2)
          = (if ids.length - start - stride ≤ cs then 1
            else (ids.length - start - stride - cs - 1) / stride + 2) + 1 := by
        by_cases h3 : ids.length - start - stride ≤ cs
        · have hlt : ids.length - start - cs - 1 < stride := by omega
          rw [if_neg hm, if_pos h3, Nat.div_eq_of_lt hlt]
        · have hge : stride ≤ ids.length - start - cs - 1 := by omega
          rw [if_neg hm, if_neg h3, Nat.div_eq_sub_div hs1 hge]
          have harg : ids.length - start - cs - 1 - stride
              = ids.length - start - stride - cs - 1 := by omega
          rw [harg]
      rw [hcnt, List.range_succ_eq_map, List.map_cons, List.map_map]
      have hfun : ((fun i => (ids.drop (start + i * stride)).take cs) ∘ Nat.succ)
          = fun i => (ids.drop (start + stride + i * stride)).take cs := by
        funext i
        have h5 : start + (i + 1) * stride = start + stride + i * stride := by
          ring
        simp [Function.comp, Nat.succ_eq_add_one, h5]
      rw [hfun]
      norm_num

/-! ## Claim theorems -/

/-- C7: the constructor derives `chunk_size` as the (effective) maximum
input length minus the fixed safety margin of 8 tokens, floored at 16, and
clamps `chunk_overlap` into the range `[0, chunk_size // 2]`. -/
theorem c7_constructor_bounds (model_max : ℤ) (max_tokens : Option ℤ)
    (overlap : ℤ) :
    initChunkSize model_max max_tokens
        = max 16 (effectiveMaxTokens model_max max_tokens - margin) ∧
    16 ≤ initChunkSize model_max max_tokens ∧
    0 ≤ initChunkOverlap overlap (initChunkSize model_max max_tokens) ∧
    initChunkOverlap overlap (initChunkSize model_max max_tokens)
        ≤ initChunkSize model_max max_tokens / 2 := by
  refine ⟨rfl, ?_, ?_, ?_⟩ <;>
    · simp only [initChunkSize, initChunkOverlap, margin]
      omega

/-- C8: a non-blank string of at most `chunk_size` tokens is returned as
the single original chunk, unmodified; blank or non-string input yields
the empty chunk list. -/
theorem c8_short_text_single_chunk {α : Type} (tok : Tokenizer)
    (cs ov : ℕ) (s : String) (t : PyVal α)
    (hs : strBlank s = false) (hlen : (tok.encode s).length ≤ cs)
    (ht : t.scorable = false) :
    chunk_by_tokens tok cs ov (PyVal.str (α := α) s) = [s] ∧
    chunk_by_tokens tok cs ov t = [] := by
  constructor
  · simp [chunk_by_tokens, hs, hlen]
  · match t with
    | .pynull => rfl
    | .num _ => rfl
    | .str s' =>
      have hb : strBlank s' = true := by
        simpa [PyVal.scorable] using ht
      simp [chunk_by_tokens, hb]

/-- C4: for a non-blank string whose token count exceeds `chunk_size`, the
chunker returns the decoded windows taken at offsets `0, stride, 2*stride, …`
with `stride = chunk_size - chunk_overlap` (first conjunct, with the window
count in closed form), every non-final window holds exactly `chunk_size`
token ids and shares exactly `chunk_overlap` ids with its successor
(second conjunct), the final window is non-empty and clipped to the
remaining tokens, reaching the end of the token sequence (third to fifth
conjuncts), and for a text of exactly `3 * stride + 1` tokens the schedule
yields 3 windows (4 in the degenerate `chunk_overlap = 0` case)
(last conjunct). -/
theorem c4_long_text_window_schedule {α : Type} (tok : Tokenizer) (cs ov : ℕ)
    (s : String) (hcs : 0 < cs) (hov : 2 * ov ≤ cs)
    (hs : strBlank s = false) (hlen : cs < (tok.encode s).length) :
    chunk_by_tokens tok cs ov (PyVal.str (α := α) s)
        = (List.range (((tok.encode s).length - cs - 1) / (cs - ov) + 2)).map
            (fun i => tok.decode (((tok.encode s).drop (i * (cs - ov))).take cs)) ∧
    (∀ i, i + 1 < ((tok.encode s).length - cs - 1) / (cs - ov) + 2 →
        (((tok.encode s).drop (i * (cs - ov))).take cs).length = cs ∧
        (((tok.encode s).drop (i * (cs - ov))).take cs).drop (cs - ov)
          = (((tok.encode s).drop ((i + 1) * (cs - ov))).take cs).take ov ∧
        ((((tok.encode s).drop ((i + 1) * (cs - ov))).take cs).take ov).length
          = ov) ∧
    (((tok.encode s).drop
        ((((tok.encode s).length - cs - 1) / (cs - ov) + 1) * (cs - ov))).take
          cs).length
      = (tok.encode s).length
        - (((tok.encode s).length - cs - 1) / (cs - ov) + 1) * (cs - ov) ∧
    0 < (((tok.encode s).drop
        ((((tok.encode s).length - cs - 1) / (cs - ov) + 1) * (cs - ov))).take
          cs).length ∧
    (tok.encode s).length
      ≤ (((tok.encode s).length - cs - 1) / (cs - ov) + 1) * (cs - ov) + cs ∧
    ((tok.encode s).length = 3 * (cs - ov) + 1 →
      ((tok.encode s).length - cs - 1) / (cs - ov) + 2
        = if ov = 0 then 4 else 3) := by
  set ids := tok.encode s with hids
  set st := cs - ov with hst
  set len := ids.length with hlenDef
  set a := len - cs - 1 with ha
  set q := a / st with hq
  have hstpos : 0 < st := by omega
  have hstle : st ≤ cs := by omega
  have hcsst : cs - st = ov := by omega
  have hdm := Nat.div_add_mod a st
  rw [← hq] at hdm
  have hr : a % st < st := Nat.mod_lt _ hstpos
  have hcomm : st * q = q * st := Nat.mul_comm st q
  have hq1 : (q + 1) * st = q * st + st := by ring
  refine ⟨?_, ?_, ?_, ?_, ?_, ?_⟩
  · -- the code loop refines the offset schedule
    have hfuel : len ≤ 0 + (len + 1) * st := by
      have h1 : (len + 1) * 1 ≤ (len + 1) * st := Nat.mul_le_mul_left _ hstpos
      omega
    simp only [chunk_by_tokens, hs, Bool.false_eq_true, if_false, ← hids,
      ← hlenDef, ← hst]
    rw [if_neg (by omega)]
    rw [chunkFrom_closed ids cs st hcs hstpos hstle (len + 1) 0 (by omega) hfuel]
    rw [List.map_map]
    have hcond : ¬ (len - 0 ≤ cs) := by omega
    rw [if_neg hcond]
    have hfold : len - 0 - cs - 1 = a := by omega
    rw [hfold, ← hq]
    congr 1
    funext i
    simp [Function.comp]
  · -- every non-final window is full and overlaps its successor by `ov`
    intro i hi
    have hiq : i ≤ q := by omega
    have hi1 : i * st ≤ q * st := Nat.mul_le_mul_right st hiq
    have hi2 : (i + 1) * st ≤ (q + 1) * st := Nat.mul_le_mul_right st (by omega)
    have hi3 : (i + 1) * st = i * st + st := by ring
    refine ⟨?_, ?_, ?_⟩
    · simp only [List.length_take, List.length_drop, ← hlenDef]
      omega
    · rw [List.drop_take, List.drop_drop, hcsst, List.take_take]
      have h5 : i * st + st = (i + 1) * st := by ring
      rw [h5, Nat.min_eq_left (by omega)]
    · simp only [List.length_take, List.length_drop, ← hlenDef]
      omega
  · -- the final window is clipped to the remaining tokens
    simp only [List.length_take, List.length_drop, ← hlenDef]
    omega
  · -- and it is non-empty
    simp only [List.length_take, List.length_drop, ← hlenDef]
    omega
  · -- and it reaches the end of the token sequence
    omega
  · -- the `3 * stride + 1` window count
    intro h3
    have ha2 : a = 2 * st - ov := by omega
    have hovst : ov ≤ st := by omega
    by_cases hov0 : ov = 0
    · have ha3 : a = 2 * st := by omega
      have : q = 2 := by
        rw [hq, ha3]
        exact Nat.mul_div_cancel 2 hstpos
      simp [hov0, this]
    · have : q = 1 := by
        rw [hq]
        refine Nat.div_eq_of_lt_le (by simpa using (by omega : st ≤ a))
          (by simpa [Nat.succ_mul] using (by omega : a < 2 * st))
      simp [hov0, this]

/-- A fixed tokenizer for the C4 witness: every text encodes to the 37
token ids `0, …, 36`; windows decode to the text `"c"`. -/
def fixedTok : Tokenizer :=
  ⟨fun _ => List.range 37, fun _ => "c"⟩

/-- Witness for C4: `chunk_size = 16`, `chunk_overlap = 4`, hence
`stride = 12`, on a text of `37 = 3 * stride + 1` tokens: exactly the 3
scheduled windows are produced. -/
theorem c4_witness :
    chunk_by_tokens fixedTok 16 4 (PyVal.str (α := ℚ) "hello")
      = ["c", "c", "c"] := by
  rw [(c4_long_text_window_schedule (α := ℚ) fixedTok 16 4 "hello"
    (by decide) (by decide) (by decide) (by decide)).1]
  decide

/-- A simple concrete tokenizer for witnesses: character codes as token
ids. -/
def charTok : Tokenizer :=
  ⟨fun s => s.data.map Char.toNat, fun l => (l.map Char.ofNat).asString⟩

/-- Witness for C8 at a concrete short text and a concrete blank input. -/
theorem c8_witness :
    chunk_by_tokens charTok 504 32 (PyVal.str (α := ℚ) "ab") = ["ab"] ∧
    chunk_by_tokens charTok 504 32 (PyVal.str (α := ℚ) " ") = [] :=
  c8_short_text_single_chunk charTok 504 32 "ab" (PyVal.str " ")
    (by decide) (by decide) (by decide)

/-- C10: the chunking loop terminates on every input: the constructor
guarantees a stride of at least 8 (hence strictly positive), the window
start offsets strictly increase by that stride, and fuel
`ids.length + 1` already reaches the loop's natural exit (any larger fuel
computes the same chunk list). -/
theorem c10_chunk_loop_terminates (model_max : ℤ) (max_tokens : Option ℤ)
    (overlap : ℤ) (ids : List ℕ) (extra : ℕ) :
    8 ≤ initChunkSize model_max max_tokens
        - initChunkOverlap overlap (initChunkSize model_max max_tokens) ∧
    chunkFrom ids (initChunkSize model_max max_tokens).toNat
        ((initChunkSize model_max max_tokens).toNat
          - (initChunkOverlap overlap (initChunkSize model_max max_tokens)).toNat)
        (ids.length + 1 + extra) 0
      = chunkFrom ids (initChunkSize model_max max_tokens).toNat
        ((initChunkSize model_max max_tokens).toNat
          - (initChunkOverlap overlap (initChunkSize model_max max_tokens)).toNat)
        (ids.length + 1) 0 := by
  have h8 : 8 ≤ initChunkSize model_max max_tokens
      - initChunkOverlap overlap (initChunkSize model_max max_tokens) := by
    simp only [initChunkSize, initChunkOverlap, margin]
    omega
  have hcs : 16 ≤ initChunkSize model_max max_tokens := by
    simp only [initChunkSize, margin]; omega
  have hov : 0 ≤ initChunkOverlap overlap (initChunkSize model_max max_tokens) := by
    simp only [initChunkOverlap]; omega
  refine ⟨h8, ?_⟩
  apply chunkFrom_fuel_congr _ _ _ (by omega) _ _ _ (by omega) (by omega)

/-! ## Similarity-layer helpers -/

theorem pooled_embedding_of_not_scorable {d : ℕ} {α : Type}
    (E : EmbeddingEvaluator d) (t : PyVal α) (h : t.scorable = false) :
    pooled_embedding E t = none := by
  match t with
  | .pynull => rfl
  | .num _ => rfl
  | .str s =>
    have hb : strBlank s = true := by simpa [PyVal.scorable] using h
    simp [pooled_embedding, hb]

theorem cosSim_comm {d : ℕ} (a b : Vec d) : cosSim a b = cosSim b a := by
  unfold cosSim dotProd
  exact Finset.sum_congr rfl (fun i _ => mul_comm _ _)

theorem vec_zero_of_l2norm_zero {d : ℕ} {v : Vec d} (h : l2norm v = 0) :
    ∀ i, v i = 0 := by
  intro i
  have hsum : (∑ j, v j * v j) = 0 := by
    have hnonneg : (0:ℝ) ≤ ∑ j, v j * v j :=
      Finset.sum_nonneg (fun j _ => mul_self_nonneg (v j))
    rwa [l2norm, Real.sqrt_eq_zero hnonneg] at h
  have hterm : v i * v i = 0 := by
    have := (Finset.sum_eq_zero_iff_of_nonneg
      (fun j _ => mul_self_nonneg (v j))).mp hsum
    exact this i (Finset.mem_univ i)
  exact mul_self_eq_zero.mp hterm

theorem cosSim_zero_left {d : ℕ} {v1 : Vec d} (v2 : Vec d)
    (h : ∀ i, v1 i = 0) : cosSim v1 v2 = 0 := by
  unfold cosSim dotProd epsNormalize
  refine Finset.sum_eq_zero (fun i _ => ?_)
  rw [h i]
  simp

/-- The all-zeros embedding vector in dimension 1. -/
def zeroVec1 : Vec 1 := fun _ => 0

theorem l2norm_zeroVec1 : l2norm zeroVec1 = 0 := by
  simp [l2norm, zeroVec1]

/-- An evaluator whose (degenerate) embedding model returns the zero
vector for every chunk: the pooled document vector of every passage then
has exactly zero L2 norm. -/
noncomputable def zeroEvaluator : EmbeddingEvaluator 1 :=
  ⟨fun _ => zeroVec1, charTok, true, 504, 32⟩

theorem pooled_zeroEvaluator (s : String) (hs : strBlank s = false)
    (hlen : (charTok.encode s).length ≤ 504) :
    pooled_embedding (α := ℚ) zeroEvaluator (PyVal.str s) = some zeroVec1 := by
  have hchunks : chunk_by_tokens charTok 504 32 (PyVal.str (α := ℚ) s) = [s] := by
    simp [chunk_by_tokens, hs, hlen]
  have hmean : meanPool [zeroVec1] = zeroVec1 := by
    funext i
    simp [meanPool, zeroVec1]
  have hnorm : epsNormalize zeroVec1 = zeroVec1 := by
    funext i
    simp [epsNormalize, zeroVec1]
  simp [pooled_embedding, zeroEvaluator, hs, hchunks, embed_texts, hmean, hnorm]

/-! ## Similarity-layer claims -/

/-- C3: `compute_similarity` returns `None` whenever either argument is
`None`/`NaN`, an empty or whitespace-only string, or not a string at all;
no numeric score is fabricated for such inputs. -/
theorem c3_null_propagation {d : ℕ} {α : Type} (E : EmbeddingEvaluator d)
    (t1 t2 : PyVal α) (h : t1.scorable = false ∨ t2.scorable = false) :
    compute_similarity E t1 t2 = none := by
  cases h with
  | inl h1 =>
    have hp := pooled_embedding_of_not_scorable E t1 h1
    cases hp2 : pooled_embedding E t2 <;> simp [compute_similarity, hp, hp2]
  | inr h2 =>
    have hp := pooled_embedding_of_not_scorable E t2 h2
    cases hp1 : pooled_embedding E t1 <;> simp [compute_similarity, hp, hp1]

/-- Witness for C3: an empty string, a whitespace-only string and a null
each yield `None` against non-blank text. -/
theorem c3_witness :
    compute_similarity (α := ℚ) zeroEvaluator (PyVal.str "") (PyVal.str "x")
      = none ∧
    compute_similarity (α := ℚ) zeroEvaluator PyVal.pynull (PyVal.str "x")
      = none ∧
    compute_similarity (α := ℚ) zeroEvaluator (PyVal.str "   ") (PyVal.str "x")
      = none :=
  ⟨c3_null_propagation zeroEvaluator _ _ (Or.inl (by decide)),
   c3_null_propagation zeroEvaluator _ _ (Or.inl (by decide)),
   c3_null_propagation zeroEvaluator _ _ (Or.inl (by decide))⟩

/-- C9: `compute_similarity` is symmetric in its two passages: each side
is pooled independently and the cosine measure is symmetric. -/
theorem c9_similarity_symmetric {d : ℕ} {α : Type} (E : EmbeddingEvaluator d)
    (t1 t2 : PyVal α) :
    compute_similarity E t1 t2 = compute_similarity E t2 t1 := by
  cases h1 : pooled_embedding E t1 <;> cases h2 : pooled_embedding E t2 <;>
    simp [compute_similarity, h1, h2, cosSim_comm]

/-- C2, counterexample to the claim as stated: with an embedding backend
that yields the zero vector, both pooled document vectors have exactly
zero L2 norm, yet `compute_similarity` returns the score `0.0`, not
`None`: `util.cos_sim` clamps each norm from below by `eps = 1e-12`
before dividing, so the zero-norm case produces a fabricated `0.0` rather
than the null the claim promises. -/
theorem c2_counterexample :
    pooled_embedding (α := ℚ) zeroEvaluator (PyVal.str "a") = some zeroVec1 ∧
    l2norm zeroVec1 = 0 ∧
    compute_similarity (α := ℚ) zeroEvaluator (PyVal.str "a") (PyVal.str "b")
      = some 0 ∧
    compute_similarity (α := ℚ) zeroEvaluator (PyVal.str "a") (PyVal.str "b")
      ≠ none := by
  have hpa := pooled_zeroEvaluator "a" (by decide) (by decide)
  have hpb := pooled_zeroEvaluator "b" (by decide) (by decide)
  have hcos : cosSim zeroVec1 zeroVec1 = 0 :=
    cosSim_zero_left zeroVec1 (fun i => rfl)
  refine ⟨hpa, l2norm_zeroVec1, ?_, ?_⟩
  · simp [compute_similarity, hpa, hpb, hcos]
  · simp [compute_similarity, hpa, hpb]

/-- C2 as amended: if either pooled document vector has exactly zero L2
norm, `compute_similarity` returns the score `0.0` — it neither raises a
division error nor propagates a crash, but it does not return null. -/
theorem c2_zero_norm_yields_zero {d : ℕ} {α : Type} (E : EmbeddingEvaluator d)
    (t1 t2 : PyVal α) (v1 v2 : Vec d)
    (h1 : pooled_embedding E t1 = some v1)
    (h2 : pooled_embedding E t2 = some v2)
    (h0 : l2norm v1 = 0 ∨ l2norm v2 = 0) :
    compute_similarity E t1 t2 = some 0 := by
  have hcos : cosSim v1 v2 = 0 := by
    cases h0 with
    | inl h => exact cosSim_zero_left v2 (vec_zero_of_l2norm_zero h)
    | inr h =>
      rw [cosSim_comm]
      exact cosSim_zero_left v1 (vec_zero_of_l2norm_zero h)
  simp [compute_similarity, h1, h2, hcos]

/-- Witness for the amended C2 at the concrete zero-embedding evaluator. -/
theorem c2_witness :
    compute_similarity (α := ℚ) zeroEvaluator (PyVal.str "a") (PyVal.str "b")
      = some 0 :=
  c2_zero_norm_yields_zero zeroEvaluator _ _ zeroVec1 zeroVec1
    (pooled_zeroEvaluator "a" (by decide) (by decide))
    (pooled_zeroEvaluator "b" (by decide) (by decide))
    (Or.inl l2norm_zeroVec1)

/-! ## DataFrame helpers -/

theorem lookup_map_replace {α : Type} (l : List (String × List (PyVal α)))
    (c c' : String) (v : List (PyVal α)) (h : c ≠ c') :
    (l.map (fun p => if p.1 = c' then (c', v) else p)).lookup c = l.lookup c := by
  induction l with
  | nil => rfl
  | cons p t ih =>
    by_cases hp : p.1 = c'
    · simp only [List.map_cons]
      rw [if_pos hp]
      simp only [List.lookup]
      rw [show (c == c') = false from beq_eq_false_iff_ne.mpr h,
        show (c == p.1) = false from beq_eq_false_iff_ne.mpr (by rw [hp]; exact h)]
      exact ih
    · simp only [List.map_cons]
      rw [if_neg hp]
      simp only [List.lookup]
      cases hc : c == p.1 <;> simp [ih]

theorem lookup_append_single {α : Type} (l : List (String × List (PyVal α)))
    (c c' : String) (v : List (PyVal α)) (h : c ≠ c') :
    (l ++ [(c', v)]).lookup c = l.lookup c := by
  induction l with
  | nil =>
    simp only [List.nil_append, List.lookup,
      show (c == c') = false from beq_eq_false_iff_ne.mpr h]
  | cons p t ih =>
    simp only [List.cons_append, List.lookup]
    cases hc : c == p.1 <;> simp [ih]

theorem lookup_map_replace_self {α : Type} (l : List (String × List (PyVal α)))
    (c : String) (v : List (PyVal α)) (h : c ∈ l.map Prod.fst) :
    (l.map (fun p => if p.1 = c then (c, v) else p)).lookup c = some v := by
  induction l with
  | nil => simp at h
  | cons p t ih =>
    by_cases hp : p.1 = c
    · simp only [List.map_cons]
      rw [if_pos hp]
      simp [List.lookup]
    · have ht : c ∈ t.map Prod.fst := by
        rcases List.mem_cons.mp h with h1 | h1
        · exact absurd h1.symm hp
        · exact h1
      simp only [List.map_cons]
      rw [if_neg hp]
      simp only [List.lookup,
        show (c == p.1) = false from beq_eq_false_iff_ne.mpr (fun he => hp he.symm)]
      exact ih ht

theorem lookup_append_self {α : Type} (l : List (String × List (PyVal α)))
    (c : String) (v : List (PyVal α)) (h : c ∉ l.map Prod.fst) :
    (l ++ [(c, v)]).lookup c = some v := by
  induction l with
  | nil => simp [List.lookup]
  | cons p t ih =>
    have hp : c ≠ p.1 := by
      intro he
      exact h (by simp [he])
    have ht : c ∉ t.map Prod.fst := by
      intro he
      exact h (by simp [he])
    simp only [List.cons_append, List.lookup,
      show (c == p.1) = false from beq_eq_false_iff_ne.mpr hp]
    exact ih ht

theorem DataFrame.getCol_setCol_ne {α : Type} (df : DataFrame α)
    (c c' : String) (v : List (PyVal α)) (h : c ≠ c') :
    (df.setCol c' v).getCol c = df.getCol c := by
  unfold DataFrame.setCol DataFrame.getCol
  by_cases hm : c' ∈ df.colNames
  · simp only [if_pos hm]
    exact lookup_map_replace df.cols c c' v h
  · simp only [if_neg hm]
    exact lookup_append_single df.cols c c' v h

theorem DataFrame.getCol_setCol_self {α : Type} (df : DataFrame α)
    (c : String) (v : List (PyVal α)) :
    (df.setCol c v).getCol c = some v := by
  unfold DataFrame.setCol DataFrame.getCol
  by_cases hm : c ∈ df.colNames
  · simp only [if_pos hm]
    exact lookup_map_replace_self df.cols c v hm
  · simp only [if_neg hm]
    exact lookup_append_self df.cols c v hm

theorem DataFrame.cell_setCol_ne {α : Type} (df : DataFrame α)
    (c c' : String) (v : List (PyVal α)) (i : ℕ) (h : c ≠ c') :
    (df.setCol c' v).cell c i = df.cell c i := by
  unfold DataFrame.cell
  rw [DataFrame.getCol_setCol_ne df c c' v h]

theorem DataFrame.colNames_setCol_notMem {α : Type} (df : DataFrame α)
    (c : String) (v : List (PyVal α)) (h : c ∉ df.colNames) :
    (df.setCol c v).colNames = df.colNames ++ [c] := by
  unfold DataFrame.colNames at h ⊢
  unfold DataFrame.setCol DataFrame.colNames
  rw [if_neg h]
  simp

theorem DataFrame.nRows_setCol {α : Type} (df : DataFrame α)
    (c : String) (v : List (PyVal α)) (h : v.length = df.nRows) :
    (df.setCol c v).nRows = df.nRows := by
  unfold DataFrame.setCol
  by_cases hm : c ∈ df.colNames
  · simp only [if_pos hm]
    cases hcols : df.cols with
    | nil => simp [DataFrame.colNames, hcols] at hm
    | cons p t =>
      by_cases hp : p.1 = c
      · simp only [DataFrame.nRows, hcols, List.map_cons, if_pos hp]
        rw [h]
        simp [DataFrame.nRows, hcols]
      · simp [DataFrame.nRows, hcols, if_neg hp]
  · simp only [if_neg hm]
    cases hcols : df.cols with
    | nil =>
      simp only [DataFrame.nRows, hcols] at h
      simp [DataFrame.nRows, hcols, h]
    | cons p t => simp [DataFrame.nRows, hcols]

/-! ## Section-loop helpers -/

theorem sectionCells_ok_map {α : Type} (f : PyVal α → PyVal α → Option α)
    (df : DataFrame α) (sec : String) (l : List ℕ) :
    sectionCells (fun a b => Except.ok (f a b)) df sec l
      = Except.ok (l.map (fun i =>
          scoreToCell (f (df.cell ("ai_" ++ sec) i) (df.cell ("human_" ++ sec) i)))) := by
  induction l with
  | nil => rfl
  | cons i t ih => simp [sectionCells, ih]

theorem sectionCells_error {α : Type}
    (sim : PyVal α → PyVal α → Except Unit (Option α))
    (df : DataFrame α) (sec : String) (l : List ℕ)
    (h : ∃ i ∈ l,
      sim (df.cell ("ai_" ++ sec) i) (df.cell ("human_" ++ sec) i)
        = Except.error ()) :
    sectionCells sim df sec l = Except.error () := by
  induction l with
  | nil => simp at h
  | cons j t ih =>
    rcases h with ⟨i, hi, herr⟩
    rcases List.mem_cons.mp hi with rfl | hit
    · simp [sectionCells, herr]
    · cases hj : sim (df.cell ("ai_" ++ sec) j) (df.cell ("human_" ++ sec) j) with
      | error e => cases e; simp [sectionCells, hj]
      | ok r => simp [sectionCells, hj, ih ⟨i, hit, herr⟩]

theorem sectionCells_congr {α : Type}
    (sim : PyVal α → PyVal α → Except Unit (Option α))
    (df1 df2 : DataFrame α) (sec : String) (l : List ℕ)
    (hai : ∀ i, df1.cell ("ai_" ++ sec) i = df2.cell ("ai_" ++ sec) i)
    (hhu : ∀ i, df1.cell ("human_" ++ sec) i = df2.cell ("human_" ++ sec) i) :
    sectionCells sim df1 sec l = sectionCells sim df2 sec l := by
  induction l with
  | nil => rfl
  | cons i t ih => simp [sectionCells, hai i, hhu i, ih]

theorem sectionCells_ok_length {α : Type}
    {sim : PyVal α → PyVal α → Except Unit (Option α)}
    {df : DataFrame α} {sec : String} :
    ∀ {l : List ℕ} {vals : List (PyVal α)},
      sectionCells sim df sec l = Except.ok vals → vals.length = l.length := by
  intro l
  induction l with
  | nil =>
    intro vals h
    simp only [sectionCells] at h
    cases h
    rfl
  | cons i t ih =>
    intro vals h
    simp only [sectionCells] at h
    cases hj : sim (df.cell ("ai_" ++ sec) i) (df.cell ("human_" ++ sec) i) with
    | error e => rw [hj] at h; cases h
    | ok r =>
      rw [hj] at h
      cases hrest : sectionCells sim df sec t with
      | error e => rw [hrest] at h; cases h
      | ok rs =>
        rw [hrest] at h
        cases h
        simp [ih hrest]

theorem sections_required_mem :
    ∀ sec ∈ sections,
      ("ai_" ++ sec) ∈ requiredColumns ∧ ("human_" ++ sec) ∈ requiredColumns := by
  decide

theorem sections_sim_not_required :
    ∀ sec ∈ sections, ∀ c ∈ requiredColumns, c ≠ sec ++ "_similarity" := by
  decide

theorem applySections_error {α : Type}
    (sim : PyVal α → PyVal α → Except Unit (Option α)) (df : DataFrame α) :
    ∀ (secs : List String) (acc : DataFrame α),
      (∀ sec ∈ secs, sec ∈ sections) →
      acc.nRows = df.nRows →
      (∀ c ∈ requiredColumns, ∀ i, acc.cell c i = df.cell c i) →
      (∃ sec ∈ secs, ∃ i, i < df.nRows ∧
        sim (df.cell ("ai_" ++ sec) i) (df.cell ("human_" ++ sec) i)
          = Except.error ()) →
      applySections sim secs acc = Except.error EvalError.scorerFailure := by
  intro secs
  induction secs with
  | nil =>
    intro acc _ _ _ hex
    simp at hex
  | cons s rest ih =>
    intro acc hsub hn hcell hex
    have hsmem : s ∈ sections := hsub s (by simp)
    have hcong : sectionColumn sim acc s
        = sectionCells sim df s (List.range df.nRows) := by
      unfold sectionColumn
      rw [hn]
      exact sectionCells_congr sim acc df s _
        (fun i => hcell _ (sections_required_mem s hsmem).1 i)
        (fun i => hcell _ (sections_required_mem s hsmem).2 i)
    rcases hex with ⟨sec, hsec, i, hi, herr⟩
    rcases List.mem_cons.mp hsec with rfl | hrest
    · have herr2 : sectionCells sim df sec (List.range df.nRows)
          = Except.error () :=
        sectionCells_error _ _ _ _ ⟨i, List.mem_range.mpr hi, herr⟩
      simp [applySections, hcong, herr2]
    · cases hsc : sectionColumn sim acc s with
      | error e => simp [applySections, hsc]
      | ok vals =>
        have hlen : vals.length = acc.nRows := by
          have h1 : sectionCells sim df s (List.range df.nRows)
              = Except.ok vals := by rw [← hcong]; exact hsc
          have := sectionCells_ok_length h1
          simpa [hn] using this
        simp only [applySections, hsc]
        apply ih (acc.setCol (s ++ "_similarity") vals)
        · intro sec' h'
          exact hsub sec' (List.mem_cons_of_mem _ h')
        · rw [DataFrame.nRows_setCol _ _ _ hlen]
          exact hn
        · intro c hc i'
          rw [DataFrame.cell_setCol_ne _ _ _ _ _
            (sections_sim_not_required s hsmem c hc)]
          exact hcell c hc i'
        · exact ⟨sec, hrest, i, hi, herr⟩

/-! ## Driver claims -/

/-- C5: `evaluate_results` validates the ten required input columns before
touching any row, and on any absence raises a single error listing every
missing column name; since the result is the error, no similarity column
is computed and no output file is written (the scorer `sim` is arbitrary:
validation does not depend on it). -/
theorem c5_schema_validation {α : Type}
    (sim : PyVal α → PyVal α → Except Unit (Option α)) (df : DataFrame α)
    (h : requiredColumns.filter (fun c => !(df.colNames.contains c)) ≠ []) :
    evaluate_results sim df
      = Except.error (EvalError.missingColumns
          (requiredColumns.filter (fun c => !(df.colNames.contains c)))) := by
  unfold evaluate_results
  have hfalse : (requiredColumns.filter
      (fun c => !(df.colNames.contains c))).isEmpty = false := by
    cases hq : requiredColumns.filter (fun c => !(df.colNames.contains c)) with
    | nil => exact absurd hq h
    | cons a l => rfl
  dsimp only
  rw [hfalse]
  simp

/-- A scorer that never raises and always reports a missing score. -/
def okSimNone : PyVal ℚ → PyVal ℚ → Except Unit (Option ℚ) :=
  fun _ _ => Except.ok none

/-- A one-column table missing nine of the ten required columns. -/
def dfMissing : DataFrame ℚ := ⟨[("ai_facts", [])]⟩

/-- Witness for C5: the single fatal error lists all nine missing column
names at once. -/
theorem c5_witness :
    evaluate_results okSimNone dfMissing
      = Except.error (EvalError.missingColumns
          ["human_facts", "ai_issue", "human_issue",
           "ai_decision", "human_decision", "ai_reasons", "human_reasons",
           "ai_ratio", "human_ratio"]) := by
  rw [c5_schema_validation okSimNone dfMissing (by decide)]
  decide

/-- A ten-column, two-row input table whose first `ai_facts` cell carries
the marker text that makes `boomSim` raise. -/
def dfBoom : DataFrame ℚ := ⟨[
  ("ai_facts", [PyVal.str "BOOM", PyVal.str "t"]),
  ("human_facts", [PyVal.str "t", PyVal.str "t"]),
  ("ai_issue", [PyVal.str "t", PyVal.str "t"]),
  ("human_issue", [PyVal.str "t", PyVal.str "t"]),
  ("ai_decision", [PyVal.str "t", PyVal.str "t"]),
  ("human_decision", [PyVal.str "t", PyVal.str "t"]),
  ("ai_reasons", [PyVal.str "t", PyVal.str "t"]),
  ("human_reasons", [PyVal.str "t", PyVal.str "t"]),
  ("ai_ratio", [PyVal.str "t", PyVal.str "t"]),
  ("human_ratio", [PyVal.str "t", PyVal.str "t"])]⟩

/-- A scorer that raises an unexpected internal failure exactly on the one
cell whose first argument is the marker text, and succeeds everywhere
else. -/
def boomSim : PyVal ℚ → PyVal ℚ → Except Unit (Option ℚ) :=
  fun a _ => if a = PyVal.str "BOOM" then Except.error () else Except.ok (some 1)

/-- C1, counterexample to the claim as stated: the scorer raises only for
the single cell (row 0, section `facts`) of `dfBoom`; every other
(row, section) cell would score successfully, yet `evaluate_results` does
not record null and continue — there is no exception handler around the
scoring loop, so the whole batch aborts with the propagated failure and no
output table exists at all. -/
theorem c1_counterexample :
    evaluate_results boomSim dfBoom = Except.error EvalError.scorerFailure ∧
    (∀ a b : PyVal ℚ, a ≠ PyVal.str "BOOM" → boomSim a b = Except.ok (some 1)) := by
  constructor
  · decide
  · intro a b ha
    simp [boomSim, ha]

/-- C1 as amended: an unexpected scorer failure at any single (row,
section) cell of a schema-valid table aborts the whole run: the result is
the propagated error, not a table with a null cell. -/
theorem c1_scorer_failure_aborts {α : Type}
    (sim : PyVal α → PyVal α → Except Unit (Option α)) (df : DataFrame α)
    (hreq : ∀ c ∈ requiredColumns, c ∈ df.colNames)
    (hfail : ∃ sec ∈ sections, ∃ i, i < df.nRows ∧
      sim (df.cell ("ai_" ++ sec) i) (df.cell ("human_" ++ sec) i)
        = Except.error ()) :
    evaluate_results sim df = Except.error EvalError.scorerFailure := by
  unfold evaluate_results
  have hmiss : requiredColumns.filter (fun c => !(df.colNames.contains c)) = [] := by
    rw [List.filter_eq_nil_iff]
    intro c hc
    simp [hreq c hc]
  dsimp only
  rw [hmiss]
  rw [applySections_error sim df sections df (fun _ h => h) rfl
    (fun _ _ _ => rfl) hfail]
  rfl

/-- Witness for the amended C1 at the concrete one-bad-cell table. -/
theorem c1_witness :
    evaluate_results boomSim dfBoom = Except.error EvalError.scorerFailure :=
  c1_scorer_failure_aborts boomSim dfBoom (by decide)
    ⟨"facts", by decide, 0, by decide, by decide⟩

theorem applySections_ok_char {α : Type} (f : PyVal α → PyVal α → Option α)
    (df : DataFrame α) :
    ∀ (secs : List String) (acc : DataFrame α),
      (∀ sec ∈ secs, sec ∈ sections) →
      acc.nRows = df.nRows →
      (∀ c ∈ requiredColumns, ∀ i, acc.cell c i = df.cell c i) →
      (∀ sec ∈ secs, (sec ++ "_similarity") ∉ acc.colNames) →
      (secs.map (fun sec => sec ++ "_similarity")).Nodup →
      ∃ out, applySections (fun a b => Except.ok (f a b)) secs acc
          = Except.ok out ∧
        out.colNames = acc.colNames ++ secs.map (fun sec => sec ++ "_similarity") ∧
        (∀ c, c ∉ secs.map (fun sec => sec ++ "_similarity") →
          out.getCol c = acc.getCol c) ∧
        (∀ sec ∈ secs, out.getCol (sec ++ "_similarity")
          = some ((List.range df.nRows).map (fun i =>
              scoreToCell (f (df.cell ("ai_" ++ sec) i)
                (df.cell ("human_" ++ sec) i))))) := by
  intro secs
  induction secs with
  | nil =>
    intro acc _ _ _ _ _
    exact ⟨acc, rfl, by simp, fun c _ => rfl, by simp⟩
  | cons s rest ih =>
    intro acc hsub hn hcell hfresh hnodup
    have hsmem : s ∈ sections := hsub s (by simp)
    have hcol : sectionColumn (fun a b => Except.ok (f a b)) acc s
        = Except.ok ((List.range df.nRows).map (fun i =>
            scoreToCell (f (df.cell ("ai_" ++ s) i)
              (df.cell ("human_" ++ s) i)))) := by
      unfold sectionColumn
      rw [sectionCells_ok_map, hn]
      have hfun : (fun i => scoreToCell (f (acc.cell ("ai_" ++ s) i)
            (acc.cell ("human_" ++ s) i)))
          = fun i => scoreToCell (f (df.cell ("ai_" ++ s) i)
            (df.cell ("human_" ++ s) i)) := by
        funext i
        rw [hcell _ (sections_required_mem s hsmem).1 i,
          hcell _ (sections_required_mem s hsmem).2 i]
      rw [hfun]
    have hlen : ((List.range df.nRows).map (fun i =>
        scoreToCell (f (df.cell ("ai_" ++ s) i)
          (df.cell ("human_" ++ s) i)))).length = acc.nRows := by
      simp [hn]
    have hnsfresh : (s ++ "_similarity") ∉ acc.colNames := hfresh s (by simp)
    rw [List.map_cons] at hnodup
    have hheadtail := List.nodup_cons.mp hnodup
    obtain ⟨out, hrun, hnames, hpres, hvals⟩ :=
      ih (acc.setCol (s ++ "_similarity")
          ((List.range df.nRows).map (fun i =>
            scoreToCell (f (df.cell ("ai_" ++ s) i)
              (df.cell ("human_" ++ s) i)))))
        (fun sec hsec => hsub sec (List.mem_cons_of_mem _ hsec))
        (by rw [DataFrame.nRows_setCol _ _ _ hlen]; exact hn)
        (fun c hc i => by
          rw [DataFrame.cell_setCol_ne _ _ _ _ _
            (sections_sim_not_required s hsmem c hc)]
          exact hcell c hc i)
        (fun sec hsec => by
          rw [DataFrame.colNames_setCol_notMem _ _ _ hnsfresh]
          intro hmem
          rcases List.mem_append.mp hmem with h1 | h1
          · exact hfresh sec (List.mem_cons_of_mem _ hsec) h1
          · have heq : sec ++ "_similarity" = s ++ "_similarity" := by
              simpa using h1
            exact hheadtail.1 (heq ▸ List.mem_map_of_mem _ hsec))
        hheadtail.2
    refine ⟨out, ?_, ?_, ?_, ?_⟩
    · simp only [applySections, hcol]
      exact hrun
    · rw [hnames, DataFrame.colNames_setCol_notMem _ _ _ hnsfresh]
      simp
    · intro c hc
      have hcrest : c ∉ rest.map (fun sec => sec ++ "_similarity") := by
        intro hmem
        exact hc (by simp [hmem])
      have hcns : c ≠ s ++ "_similarity" := by
        intro he
        exact hc (by simp [he])
      rw [hpres c hcrest, DataFrame.getCol_setCol_ne _ _ _ _ hcns]
    · intro sec hsec
      rcases List.mem_cons.mp hsec with rfl | hsec'
      · rw [hpres _ hheadtail.1, DataFrame.getCol_setCol_self]
      · exact hvals sec hsec'

/-- C6 as amended: on a schema-valid table that does not already contain
any of the five similarity column names, `evaluate_results` (with a
scorer that raises no exception, modelled by the total function `f`)
succeeds, reporting the fixed output location, and the persisted table is
exactly the input table with all original columns unchanged and in input
order, plus the five similarity columns appended at the end, holding the
per-row computed scores.  (If a similarity column name already exists in
the input, pandas assignment overwrites that column in place instead of
appending — see the counterexample.) -/
theorem c6_augmented_table {α : Type} (f : PyVal α → PyVal α → Option α)
    (df : DataFrame α)
    (hreq : ∀ c ∈ requiredColumns, c ∈ df.colNames)
    (hfresh : ∀ sec ∈ sections, (sec ++ "_similarity") ∉ df.colNames) :
    ∃ out, evaluate_results (fun a b => Except.ok (f a b)) df
        = Except.ok (out, outputFile) ∧
      out.colNames = df.colNames ++ sections.map (fun sec => sec ++ "_similarity") ∧
      (∀ c, c ∈ df.colNames → out.getCol c = df.getCol c) ∧
      (∀ sec ∈ sections, out.getCol (sec ++ "_similarity")
        = some ((List.range df.nRows).map (fun i =>
            scoreToCell (f (df.cell ("ai_" ++ sec) i)
              (df.cell ("human_" ++ sec) i))))) := by
  obtain ⟨out, hrun, hnames, hpres, hvals⟩ :=
    applySections_ok_char f df sections df (fun _ h => h) rfl
      (fun _ _ _ => rfl) hfresh (by decide)
  refine ⟨out, ?_, hnames, ?_, hvals⟩
  · unfold evaluate_results
    have hmiss : requiredColumns.filter (fun c => !(df.colNames.contains c))
        = [] := by
      rw [List.filter_eq_nil_iff]
      intro c hc
      simp [hreq c hc]
    dsimp only
    rw [hmiss, hrun]
    rfl
  · intro c hc
    refine hpres c ?_
    intro hmem
    rcases List.mem_map.mp hmem with ⟨sec, hsec, hname⟩
    exact hfresh sec hsec (hname ▸ hc)

/-- The ten required columns, one row of non-blank texts, and no
pre-existing similarity column. -/
def dfTen : DataFrame ℚ := ⟨[
  ("ai_facts", [PyVal.str "a"]), ("human_facts", [PyVal.str "b"]),
  ("ai_issue", [PyVal.str "a"]), ("human_issue", [PyVal.str "b"]),
  ("ai_decision", [PyVal.str "a"]), ("human_decision", [PyVal.str "b"]),
  ("ai_reasons", [PyVal.str "a"]), ("human_reasons", [PyVal.str "b"]),
  ("ai_ratio", [PyVal.str "a"]), ("human_ratio", [PyVal.str "b"])]⟩

/-- Witness for the amended C6: on the concrete ten-column table the run
succeeds, reports the fixed location, and appends exactly the five
similarity columns after the ten original ones. -/
theorem c6_witness :
    (evaluate_results okSimNone dfTen).map (fun p => (p.1.colNames, p.2))
      = Except.ok (["ai_facts", "human_facts", "ai_issue", "human_issue",
          "ai_decision", "human_decision", "ai_reasons", "human_reasons",
          "ai_ratio", "human_ratio",
          "facts_similarity", "issue_similarity", "decision_similarity",
          "reasons_similarity", "ratio_similarity"],
        "results/evaluated_case_model_results_with_section_similarity.csv") := by
  obtain ⟨out, hrun, hnames, hpres, hvals⟩ :=
    c6_augmented_table (fun _ _ => (none : Option ℚ)) dfTen
      (by decide) (by decide)
  have hsim : okSimNone = fun a b => Except.ok ((fun _ _ => (none : Option ℚ)) a b) := rfl
  rw [hsim, hrun]
  simp only [Except.map]
  rw [hnames]
  decide

/-- The ten required columns plus a pre-existing `facts_similarity`
column carrying the score `7`. -/
def dfPre : DataFrame ℚ := ⟨dfTen.cols ++ [("facts_similarity", [PyVal.num 7])]⟩

/-- C6, counterexample to the claim as stated: `dfPre` is an input table
with all ten required columns, yet `evaluate_results` does not leave every
original column unchanged — its pre-existing `facts_similarity` column is
overwritten in place (its stored value changes from `7` to null), and only
four columns are appended, because pandas column assignment replaces an
existing column rather than adding a new one. -/
theorem c6_counterexample :
    (evaluate_results okSimNone dfPre).map (fun p => p.1.getCol "facts_similarity")
      = Except.ok (some [PyVal.pynull]) ∧
    dfPre.getCol "facts_similarity" = some [PyVal.num 7] ∧
    (evaluate_results okSimNone dfPre).map (fun p => p.1.colNames.length)
      = Except.ok 15 ∧
    dfPre.colNames.length = 11 := by
  refine ⟨?_, by decide, ?_, by decide⟩ <;> decide

end RateEmbedding
